import Mathlib

/-!
Shallow embedding of the task-management core of the DoneZit repository
(`src/hooks/useTasks.ts`, plus the Firestore variant whose pure helpers
`sortTasks`, `filterTasks` and `getTaskStats` are textually identical).

JavaScript `Date` values are embedded as `Int` epoch milliseconds (every
comparison in the source goes through `getTime()` / `valueOf`, which is
exactly millisecond comparison).  `Array.prototype.sort` with a consistent
comparator is, per the ECMAScript specification, a stable sort; it is
embedded as `List.mergeSort` over the boolean relation
`taskCompare a b ≤ 0`, which below is proved total and transitive, so the
stable-sort result is uniquely determined.  The ambient local-time values
`start_of_today` and `start_of_tomorrow` computed by the source from
`new Date()` are passed as explicit `today` / `tomorrow` parameters.
TypeScript optional fields and `string | null` become `Option String`;
JavaScript truthiness of such a value (`if (categoryFilter)`,
`if (!userId)`) is `strTruthy`, false exactly on `null`/`undefined` and
the empty string.
-/

namespace DoneZit

/-- The type `Priority = 'low' | 'medium' | 'high'` from `src/types/index.ts`. -/
inductive Priority where
  | low
  | medium
  | high
deriving DecidableEq, Repr

/-- The type `TaskStatus = 'pending' | 'completed'` from `src/types/index.ts`. -/
inductive TaskStatus where
  | pending
  | completed
deriving DecidableEq, Repr

/-- The `Task` interface from `src/types/index.ts`; `createdAt` and
`deadline` are epoch milliseconds. -/
structure Task where
  id : String
  userId : String
  title : String
  description : String
  createdAt : Int
  deadline : Int
  priority : Priority
  status : TaskStatus
  category : Option String := none
  categoryColor : Option String := none
deriving DecidableEq, Repr

/-- The type `FilterType` from `src/types/index.ts`. -/
inductive FilterType where
  | all
  | completed
  | pending
  | highPriority
  | dueToday
  | overdue
deriving DecidableEq, Repr

/-- JavaScript truthiness of a `string | null | undefined` value:
`null`, `undefined` and `""` are falsy. -/
def strTruthy : Option String → Bool
  | none => false
  | some s => s != ""

/-- The table `PRIORITY_WEIGHT` from `useTasks.ts` (high=3, medium=2, low=1). -/
def PRIORITY_WEIGHT : Priority → Int
  | .high => 3
  | .medium => 2
  | .low => 1

/-- The comparator passed to `Array.prototype.sort` inside `sortTasks`
(`useTasks.ts` lines 47–70), returning the signed value the source
returns. -/
def taskCompare (a b : Task) : Int :=
  if a.status ≠ b.status then
    if a.status = .completed then 1 else -1
  else if a.status = .pending then
    let priorityDiff := PRIORITY_WEIGHT b.priority - PRIORITY_WEIGHT a.priority
    if priorityDiff ≠ 0 then priorityDiff
    else
      let deadlineDiff := a.deadline - b.deadline
      if deadlineDiff ≠ 0 then deadlineDiff
      else a.createdAt - b.createdAt
  else
    b.createdAt - a.createdAt

/-- Whether `a` may be placed no later than `b` by the comparator. -/
def taskLE (a b : Task) : Bool := taskCompare a b ≤ 0

/-- The function `sortTasks` from `useTasks.ts`: a stable sort of the list by
`taskCompare` (ECMAScript guarantees `Array.prototype.sort` is stable). -/
def sortTasks (tasks : List Task) : List Task :=
  tasks.mergeSort taskLE

/-- The function `filterTasks` from `useTasks.ts` lines 76–113, with the ambient
day boundaries passed explicitly.  The category filter is applied first,
guarded by JavaScript truthiness of `categoryFilter`; then the
status/type filter. -/
def filterTasks (tasks : List Task) (filter : FilterType)
    (categoryFilter : Option String) (today tomorrow : Int) : List Task :=
  let filtered :=
    if strTruthy categoryFilter then
      tasks.filter (fun t => t.category == categoryFilter)
    else tasks
  match filter with
  | .completed => filtered.filter (fun t => t.status == .completed)
  | .pending => filtered.filter (fun t => t.status == .pending)
  | .highPriority =>
      filtered.filter (fun t => t.priority == .high && t.status == .pending)
  | .dueToday =>
      filtered.filter (fun t =>
        t.status == .pending && decide (today ≤ t.deadline) &&
          decide (t.deadline < tomorrow))
  | .overdue =>
      filtered.filter (fun t => t.status == .pending && decide (t.deadline < today))
  | .all => filtered

/-- The record returned by `getTaskStats`. -/
structure TaskStats where
  total : Nat
  completed : Nat
  pending : Nat
  overdue : Nat
deriving DecidableEq, Repr

/-- The function `getTaskStats` from `useTasks.ts` lines 210–222, with `start_of_today`
passed explicitly. -/
def getTaskStats (tasks : List Task) (today : Int) : TaskStats :=
  { total := tasks.length
    completed := (tasks.filter (fun t => t.status == .completed)).length
    pending := (tasks.filter (fun t => t.status == .pending)).length
    overdue :=
      (tasks.filter (fun t =>
        t.status == .pending && decide (t.deadline < today))).length }

/-- The record `TaskFormData` from `src/types/index.ts`. -/
structure TaskFormData where
  title : String
  description : String
  deadline : Int
  priority : Priority
  category : Option String := none
deriving DecidableEq, Repr

/-- The `newTask` record built inside `addTask` (`useTasks.ts` lines
159-169): a fresh pending task (fresh `id`, `createdAt := now`).  No
validation of `title` or `deadline` occurs anywhere in `addTask`. -/
def mkNewTask (userId : Option String) (newId : String) (now : Int)
    (taskData : TaskFormData) : Task :=
  { id := newId
    userId := userId.getD ""
    title := taskData.title
    description := taskData.description
    createdAt := now
    deadline := taskData.deadline
    priority := taskData.priority
    status := .pending
    category := taskData.category }

/-- The function `addTask` from `useTasks.ts` lines 156-172 continued:
append the new task and re-sort. -/
def addTask (userId : Option String) (prev : List Task) (newId : String)
    (now : Int) (taskData : TaskFormData) : List Task :=
  if strTruthy userId then
    sortTasks (prev ++ [mkNewTask userId newId now taskData])
  else prev

/-- The type `Partial<Task>`: each field optionally present. -/
structure TaskPatch where
  id : Option String := none
  userId : Option String := none
  title : Option String := none
  description : Option String := none
  createdAt : Option Int := none
  deadline : Option Int := none
  priority : Option Priority := none
  status : Option TaskStatus := none
  category : Option (Option String) := none
  categoryColor : Option (Option String) := none
deriving DecidableEq, Repr

/-- The object spread `{ ...task, ...updates }`: fields present in the
patch overwrite the task's fields. -/
def applyPatch (t : Task) (p : TaskPatch) : Task :=
  { id := p.id.getD t.id
    userId := p.userId.getD t.userId
    title := p.title.getD t.title
    description := p.description.getD t.description
    createdAt := p.createdAt.getD t.createdAt
    deadline := p.deadline.getD t.deadline
    priority := p.priority.getD t.priority
    status := p.status.getD t.status
    category := p.category.getD t.category
    categoryColor := p.categoryColor.getD t.categoryColor }

/-- The function `updateTask` from `useTasks.ts` lines 177–184 as a pure state
transformer: patch the task with the matching id, then re-sort. -/
def updateTask (prev : List Task) (id : String) (updates : TaskPatch) :
    List Task :=
  sortTasks (prev.map (fun t => if t.id = id then applyPatch t updates else t))

/-- The function `deleteTask` from `useTasks.ts` lines 189–191: keep the tasks whose
id differs. -/
def deleteTask (prev : List Task) (id : String) : List Task :=
  prev.filter (fun t => t.id != id)

/-- The ternary `task.status === 'pending' ? 'completed' : 'pending'`. -/
def toggleStatus : TaskStatus → TaskStatus
  | .pending => .completed
  | .completed => .pending

/-- The function `toggleTaskStatus` from `useTasks.ts` lines 196–205 as a pure state
transformer: flip the status of the task with the matching id, then
re-sort. -/
def toggleTaskStatus (prev : List Task) (id : String) : List Task :=
  sortTasks (prev.map (fun t =>
    if t.id = id then { t with status := toggleStatus t.status } else t))

/-- A user-initiated mutation of the in-memory list, for stating
invariants over arbitrary operation sequences. -/
inductive TaskOp where
  | update (id : String) (p : TaskPatch)
  | toggle (id : String)
deriving DecidableEq, Repr

/-- Run one mutation. -/
def applyOp (l : List Task) : TaskOp → List Task
  | .update id p => updateTask l id p
  | .toggle id => toggleTaskStatus l id

/-- Run a sequence of mutations, oldest first. -/
def applyOps (l : List Task) (ops : List TaskOp) : List Task :=
  ops.foldl applyOp l

/-- The comparator is antisymmetric in sign: swapping the arguments
negates the returned value. -/
theorem taskCompare_swap (a b : Task) : taskCompare b a = - taskCompare a b := by
  cases ha : a.status <;> cases hb : b.status <;>
    simp [taskCompare, ha, hb] <;> (try split_ifs) <;> omega

/-- The relation `taskLE` is total. -/
theorem taskLE_total (a b : Task) : (taskLE a b || taskLE b a) = true := by
  simp only [taskLE, Bool.or_eq_true, decide_eq_true_eq]
  have h := taskCompare_swap a b
  omega

/-- The relation `taskLE` is transitive. -/
theorem taskLE_trans (a b c : Task) :
    taskLE a b = true → taskLE b c = true → taskLE a c = true := by
  simp only [taskLE, decide_eq_true_eq]
  intro hab hbc
  cases ha : a.status <;> cases hb : b.status <;> cases hc : c.status <;>
    simp [taskCompare, ha, hb, hc] at * <;> (try split_ifs at *) <;> omega

/-- The output of `sortTasks` is a permutation of its input. -/
theorem sortTasks_perm (l : List Task) : List.Perm (sortTasks l) l :=
  List.mergeSort_perm l taskLE

/-- The output of `sortTasks` is pairwise ordered by `taskLE`. -/
theorem sortTasks_sorted (l : List Task) :
    List.Pairwise (fun a b => taskLE a b = true) (sortTasks l) :=
  List.sorted_mergeSort taskLE_trans taskLE_total l

/-- Sorting a one-element list returns it unchanged. -/
theorem sortTasks_singleton (t : Task) : sortTasks [t] = [t] :=
  List.mergeSort_of_sorted (by simp)

/-- C1: for every task list, in the output of `sortTasks` every task with
status `pending` appears before every task with status `completed` (status
is the primary sort key); the output is a permutation of the input. -/
theorem sortTasks_status_precedence (l : List Task) :
    List.Perm (sortTasks l) l ∧
      List.Pairwise (fun a b => b.status = TaskStatus.pending →
        a.status = TaskStatus.pending) (sortTasks l) := by
  refine ⟨sortTasks_perm l, (sortTasks_sorted l).imp ?_⟩
  intro a b h hb
  cases ha : a.status with
  | pending => rfl
  | completed =>
    exfalso
    simp only [taskLE, decide_eq_true_eq] at h
    simp [taskCompare, ha, hb] at h

/-- C2: among pending tasks, `sortTasks` orders by priority weight
descending, then deadline ascending, then `createdAt` ascending: any two
pending tasks in the output (a permutation of the input) satisfy the
lexicographic chain. -/
theorem sortTasks_pending_chain (l : List Task) :
    List.Perm (sortTasks l) l ∧
      List.Pairwise (fun a b =>
        a.status = TaskStatus.pending → b.status = TaskStatus.pending →
          PRIORITY_WEIGHT b.priority < PRIORITY_WEIGHT a.priority ∨
            (PRIORITY_WEIGHT a.priority = PRIORITY_WEIGHT b.priority ∧
              (a.deadline < b.deadline ∨
                (a.deadline = b.deadline ∧ a.createdAt ≤ b.createdAt))))
        (sortTasks l) := by
  refine ⟨sortTasks_perm l, (sortTasks_sorted l).imp ?_⟩
  intro a b h ha hb
  simp only [taskLE, decide_eq_true_eq] at h
  simp [taskCompare, ha, hb] at h
  split_ifs at h <;> omega

/-- C8: `sortTasks` is idempotent — sorting an already-sorted list yields
the identical sequence. -/
theorem sortTasks_idempotent (l : List Task) :
    sortTasks (sortTasks l) = sortTasks l :=
  List.mergeSort_of_sorted (sortTasks_sorted l)

/-- C3: a task is in the `due-today` view exactly when it passes the
category filter, has status `pending`, and its deadline lies in
`[start_of_today, start_of_tomorrow)`; so the `start_of_today` boundary is
included, the `start_of_tomorrow` boundary is excluded, and completed
tasks are excluded regardless of deadline. -/
theorem filterTasks_dueToday_mem (l : List Task) (cat : Option String)
    (today tomorrow : Int) (t : Task) :
    t ∈ filterTasks l .dueToday cat today tomorrow ↔
      t ∈ l ∧ (strTruthy cat = true → t.category = cat) ∧
        t.status = TaskStatus.pending ∧ today ≤ t.deadline ∧
          t.deadline < tomorrow := by
  cases hc : strTruthy cat <;>
    simp [filterTasks, hc, List.mem_filter, and_assoc] <;> tauto

/-- C4: a task is in the `overdue` view exactly when it passes the
category filter, has status `pending`, and its deadline is strictly before
`start_of_today`; so a pending task one second before the boundary is
included, a pending task exactly at `start_of_today` is excluded, and
completed tasks are excluded regardless of deadline. -/
theorem filterTasks_overdue_mem (l : List Task) (cat : Option String)
    (today tomorrow : Int) (t : Task) :
    t ∈ filterTasks l .overdue cat today tomorrow ↔
      t ∈ l ∧ (strTruthy cat = true → t.category = cat) ∧
        t.status = TaskStatus.pending ∧ t.deadline < today := by
  cases hc : strTruthy cat <;>
    simp [filterTasks, hc, List.mem_filter, and_assoc] <;> tauto

/-- A `null` category filter is falsy. -/
theorem strTruthy_none : strTruthy none = false := rfl

/-- C9: the category predicate and the pending predicate commute:
category-then-pending equals pending-then-category, and both equal the
single combined `filterTasks` call. -/
theorem filterTasks_category_pending_comm (l : List Task)
    (cat : Option String) (today tomorrow : Int) :
    filterTasks (filterTasks l .all cat today tomorrow) .pending none
          today tomorrow =
        filterTasks (filterTasks l .pending none today tomorrow) .all cat
          today tomorrow ∧
      filterTasks (filterTasks l .all cat today tomorrow) .pending none
          today tomorrow =
        filterTasks l .pending cat today tomorrow := by
  cases hc : strTruthy cat <;>
    simp [filterTasks, hc, strTruthy_none, List.filter_filter, Bool.and_comm]

/-- Every task is counted exactly once between the completed and the
pending buckets. -/
theorem length_filter_status (l : List Task) :
    l.length = (l.filter (fun t => t.status == TaskStatus.completed)).length +
      (l.filter (fun t => t.status == TaskStatus.pending)).length := by
  induction l with
  | nil => rfl
  | cons t l ih =>
    cases ht : t.status <;> simp [List.filter_cons, ht] <;> omega

/-- The overdue bucket is a sub-filter of the pending bucket. -/
theorem length_overdue_le_pending (l : List Task) (today : Int) :
    (l.filter (fun t =>
        t.status == TaskStatus.pending && decide (t.deadline < today))).length ≤
      (l.filter (fun t => t.status == TaskStatus.pending)).length := by
  induction l with
  | nil => simp
  | cons t l ih =>
    by_cases hp : (t.status == TaskStatus.pending) = true <;>
      by_cases hd : decide (t.deadline < today) = true <;>
        simp [List.filter_cons, hp, hd] <;> omega

/-- C5: for every task list and day boundary, the statistics satisfy
`total = completed + pending` and `overdue ≤ pending`. -/
theorem getTaskStats_consistent (l : List Task) (today : Int) :
    (getTaskStats l today).total =
        (getTaskStats l today).completed + (getTaskStats l today).pending ∧
      (getTaskStats l today).overdue ≤ (getTaskStats l today).pending := by
  constructor
  · simpa [getTaskStats] using length_filter_status l
  · simpa [getTaskStats] using length_overdue_le_pending l today

/-- A concrete task used to exercise the operations at explicit inputs. -/
def exTask : Task :=
  { id := "a", userId := "u", title := "t", description := "",
    createdAt := 0, deadline := 0, priority := Priority.medium,
    status := TaskStatus.pending }

/-- C6 counterexample: with a signed-in user, `addTask` on form data whose
title is the empty string does add a task to the in-memory list — the
claimed validation does not happen. -/
theorem addTask_counterexample :
    (addTask (some "u") [] "id1" 0
        { title := "", description := "", deadline := 0,
          priority := Priority.low }).length = 1 := by
  simp [addTask, strTruthy, sortTasks, List.length_mergeSort]

/-- C6 amended: `addTask` performs no validation of `title` or `deadline`;
whenever the user id is truthy it appends exactly one new task with status
`pending` (even for an empty title) and re-sorts, so the result is a
permutation of the input list plus the new task. -/
theorem addTask_adds_without_validation (uid : String) (prev : List Task)
    (newId : String) (now : Int) (d : TaskFormData) (h : uid ≠ "") :
    List.Perm (addTask (some uid) prev newId now d)
        (prev ++ [mkNewTask (some uid) newId now d]) ∧
      (mkNewTask (some uid) newId now d).status = TaskStatus.pending ∧
      (mkNewTask (some uid) newId now d).title = d.title ∧
      (addTask (some uid) prev newId now d).length = prev.length + 1 := by
  have hg : strTruthy (some uid) = true := by simp [strTruthy, h]
  refine ⟨?_, rfl, rfl, ?_⟩
  · simp only [addTask, hg, if_true]
    exact sortTasks_perm _
  · simp [addTask, hg, sortTasks, List.length_mergeSort]

/-- A concrete form-data input whose title is the empty string. -/
def emptyTitleForm : TaskFormData :=
  { title := "", description := "", deadline := 0, priority := Priority.low }

/-- C6 amended, witnessed at a concrete input with an empty title. -/
theorem addTask_adds_without_validation_witness :
    List.Perm (addTask (some "u") [] "id1" 0 emptyTitleForm)
        ([] ++ [mkNewTask (some "u") "id1" 0 emptyTitleForm]) ∧
      (mkNewTask (some "u") "id1" 0 emptyTitleForm).status =
        TaskStatus.pending ∧
      (mkNewTask (some "u") "id1" 0 emptyTitleForm).title =
        emptyTitleForm.title ∧
      (addTask (some "u") [] "id1" 0 emptyTitleForm).length =
        List.length ([] : List Task) + 1 :=
  addTask_adds_without_validation "u" [] "id1" 0 emptyTitleForm (by decide)

/-- C7 counterexample: `updateTask` spreads the whole patch over the task,
so a patch that contains `createdAt` does change the stored `createdAt`:
the task created at time `0` ends up with `createdAt = 1`. -/
theorem updateTask_createdAt_counterexample :
    (updateTask [exTask] "a" { createdAt := some 1 }).map Task.createdAt =
        [1] ∧
      exTask.createdAt = 0 := by
  refine ⟨?_, rfl⟩
  simp [updateTask, exTask, applyPatch, sortTasks_singleton]

/-- Whether a mutation leaves the `createdAt` field of its patch absent
(`toggleTaskStatus` never touches `createdAt`). -/
def opKeepsCreatedAt : TaskOp → Bool
  | .update _ p => p.createdAt == none
  | .toggle _ => true

/-- C7 amended: under any sequence of `updateTask` and `toggleTaskStatus`
operations whose update patches do not contain `createdAt`, the multiset
of `createdAt` values of the list is unchanged — no task's `createdAt` is
ever modified after creation.  (A patch that does contain `createdAt`
overwrites it, as the counterexample shows.) -/
theorem createdAt_preserved (l : List Task) (ops : List TaskOp)
    (h : ∀ op ∈ ops, opKeepsCreatedAt op = true) :
    List.Perm ((applyOps l ops).map Task.createdAt)
      (l.map Task.createdAt) := by
  induction ops generalizing l with
  | nil => exact List.Perm.refl _
  | cons op ops ih =>
    have hop : opKeepsCreatedAt op = true := h op (by simp)
    have hrest : ∀ o ∈ ops, opKeepsCreatedAt o = true :=
      fun o ho => h o (by simp [ho])
    have step : ((applyOp l op).map Task.createdAt) =
        l.map Task.createdAt ∨
        List.Perm ((applyOp l op).map Task.createdAt)
          (l.map Task.createdAt) := by
      right
      cases op with
      | update pid p =>
        have hp : p.createdAt = none := by
          simpa [opKeepsCreatedAt] using hop
        have h1 := (sortTasks_perm
          (l.map (fun t => if t.id = pid then applyPatch t p else t))).map
            Task.createdAt
        refine List.Perm.trans h1 ?_
        rw [List.map_map]
        have h2 : ∀ t ∈ l,
            (Task.createdAt ∘ fun t =>
              if t.id = pid then applyPatch t p else t) t =
              Task.createdAt t := by
          intro t ht
          by_cases hid : t.id = pid <;> simp [hid, applyPatch, hp]
        rw [List.map_congr_left h2]
      | toggle tid =>
        have h1 := (sortTasks_perm
          (l.map (fun t =>
            if t.id = tid then { t with status := toggleStatus t.status }
            else t))).map Task.createdAt
        refine List.Perm.trans h1 ?_
        rw [List.map_map]
        have h2 : ∀ t ∈ l,
            (Task.createdAt ∘ fun t =>
              if t.id = tid then { t with status := toggleStatus t.status }
              else t) t = Task.createdAt t := by
          intro t ht
          by_cases hid : t.id = tid <;> simp [hid]
        rw [List.map_congr_left h2]
    have hstep : List.Perm ((applyOp l op).map Task.createdAt)
        (l.map Task.createdAt) := by
      rcases step with he | hp
      · exact he ▸ List.Perm.refl _
      · exact hp
    exact (ih (applyOp l op) hrest).trans hstep

/-- C7 amended, witnessed: a toggle followed by a status patch on a
concrete one-task list preserves the `createdAt` multiset. -/
theorem createdAt_preserved_witness :
    List.Perm ((applyOps [exTask]
        [TaskOp.toggle "a",
          TaskOp.update "a" { status := some TaskStatus.pending }]).map
        Task.createdAt)
      ([exTask].map Task.createdAt) :=
  createdAt_preserved [exTask]
    [TaskOp.toggle "a", TaskOp.update "a" { status := some TaskStatus.pending }]
    (by decide)

/-- C10: for an id that matches no task in the list, `updateTask`,
`deleteTask` and `toggleTaskStatus` leave the multiset of tasks unchanged
(`deleteTask` even leaves the sequence unchanged); all three are total
functions, so no error is raised. -/
theorem missingId_noop (prev : List Task) (id : String) (p : TaskPatch)
    (h : ∀ t ∈ prev, t.id ≠ id) :
    List.Perm (updateTask prev id p) prev ∧
      deleteTask prev id = prev ∧
      List.Perm (toggleTaskStatus prev id) prev := by
  have hmap : ∀ g : Task → Task,
      prev.map (fun t => if t.id = id then g t else t) = prev := by
    intro g
    have h2 : ∀ t ∈ prev, (if t.id = id then g t else t) = t := by
      intro t ht
      simp [h t ht]
    rw [List.map_congr_left h2, List.map_id']
  refine ⟨?_, ?_, ?_⟩
  · rw [updateTask, hmap]
    exact sortTasks_perm prev
  · refine List.filter_eq_self.mpr ?_
    intro t ht
    simp [h t ht]
  · rw [toggleTaskStatus, hmap]
    exact sortTasks_perm prev

/-- C10 witnessed: the three operations at the absent id `"zzz"` on a
concrete one-task list. -/
theorem missingId_noop_witness :
    List.Perm (updateTask [exTask] "zzz" {}) [exTask] ∧
      deleteTask [exTask] "zzz" = [exTask] ∧
      List.Perm (toggleTaskStatus [exTask] "zzz") [exTask] :=
  missingId_noop [exTask] "zzz" {} (by decide)

end DoneZit
